import Mathlib

/-!
Verification development for the Letterboxd-Wrapped-Lite backend
(`backend/app`): a shallow embedding in Lean 4 of the RSS feed parser
(`services/rss_ingestion.py`), the ingestion background job
(`routers/ingestion.py`), the TMDB matcher (`services/tmdb_service.py`)
and the stats aggregation (`services/stats_service.py`,
`routers/stats.py`), together with theorems settling the specification
claims about those components.

Modelling conventions:
* Python strings are Lean `String`/`List Char`; the ASCII whitespace
  characters stand in for Python's whitespace class (`str.strip`,
  regex `\s`).
* Python `float` values coming out of the code are modelled as `ℚ`;
  the ingestion code only ever produces finite decimal values on the
  paths studied here.
* Fallible Python code (exceptions) is modelled with `Option`/`Except`.
-/

namespace LWL

/-! ## Python character classes and basic string helpers -/

/-- ASCII decimal digit, the `\d` class restricted to ASCII as produced
by the feeds under study. -/
def isPyDigit (c : Char) : Bool := '0' ≤ c && c ≤ '9'

/-- Python whitespace (`\s`, `str.strip`), ASCII subset:
space, tab, newline, carriage return, form feed, vertical tab. -/
def isPySpace (c : Char) : Bool :=
  c = ' ' || c = '\t' || c = '\n' || c = '\x0d' || c = '\x0c' || c = '\x0b'

/-- Python `\w` word-character class, ASCII subset:
letters, digits and underscore. -/
def isPyWord (c : Char) : Bool :=
  ('a' ≤ c && c ≤ 'z') || ('A' ≤ c && c ≤ 'Z') || isPyDigit c || c = '_'

/-- Numeric value of an ASCII digit. -/
def digitVal (c : Char) : Nat := c.toNat - '0'.toNat

/-- Value of a list of ASCII digits read in base 10. -/
def digitsVal (l : List Char) : Nat := l.foldl (fun a c => 10 * a + digitVal c) 0

/-- Python `str.strip()` (ASCII whitespace subset): drop leading and
trailing whitespace. -/
def pyStrip (l : List Char) : List Char :=
  ((l.dropWhile isPySpace).reverse.dropWhile isPySpace).reverse

/-- Python `str.lower()` on the ASCII range. -/
def pyLower (l : List Char) : List Char := l.map Char.toLower

/-- Helper: `dropWhile` never lengthens a list. -/
theorem dropWhile_len_le (p : Char → Bool) (l : List Char) :
    (l.dropWhile p).length ≤ l.length := by
  induction l with
  | nil => simp [List.dropWhile]
  | cons a t ih =>
    simp only [List.dropWhile]
    split
    · exact Nat.le_succ_of_le ih
    · simp

/-- `startsWith n h`: `n` is a prefix of `h` (used to model Python's
substring test). -/
def startsWith : List Char → List Char → Bool
  | [], _ => true
  | _ :: _, [] => false
  | a :: as, b :: bs => a = b && startsWith as bs

/-- `containsSub n h` models Python's `n in h` substring containment. -/
def containsSub (n : List Char) : List Char → Bool
  | [] => startsWith n []
  | h@(_ :: t) => startsWith n h || containsSub n t

/-! ## `_extract_rating_info` (rss_ingestion.py lines 201-219)

```python
rating_info = {"rating": None, "is_rewatch": False}
star_match = re.search(r"(★+)", description)
if star_match:
    stars = len(star_match.group(1))
    rating_info["rating"] = float(stars)
if "½" in description and star_match:
    rating_info["rating"] += 0.5
if "rewatch" in description.lower() or "re-watch" in description.lower():
    rating_info["is_rewatch"] = True
return rating_info
```
`re.search(r"(★+)")` returns the leftmost maximal run of `'★'`. -/

/-- Length of the leftmost maximal run of `'★'` characters, if any:
the group matched by `re.search(r"(★+)", s)`. -/
def firstStarRun : List Char → Option Nat
  | [] => none
  | c :: rest =>
    if c = '★' then some (1 + (rest.takeWhile (fun d => d = '★')).length)
    else firstStarRun rest

/-- The dictionary returned by `_extract_rating_info`. -/
structure RatingInfo where
  rating : Option ℚ
  is_rewatch : Bool
  deriving Repr, DecidableEq

/-- `_extract_rating_info(description)`: star-glyph rating scan plus
rewatch-token scan over one input string. -/
def extract_rating_info (description : String) : RatingInfo :=
  let cs := description.toList
  let star := firstStarRun cs
  let rating0 : Option ℚ := star.map (fun n => (n : ℚ))
  let rating : Option ℚ :=
    if containsSub ['½'] cs && star.isSome then rating0.map (fun r => r + 1/2)
    else rating0
  let low := pyLower cs
  { rating := rating
    is_rewatch :=
      containsSub "rewatch".toList low || containsSub "re-watch".toList low }

/-! ## `_extract_movie_info` (rss_ingestion.py lines 182-199)

Ordered regex attempts on the stripped title:
`r"^(.+),\s*(\d{4})$"` then `r"^(.+)\s*\((\d{4})\)$"`, with greedy
`(.+)`; on a match the returned title is `group(1).strip()` and the
year `int(group(2))`.  If neither matches, the stripped title with no
year. -/

/-- Matches the remainder of pattern 1 after the greedy group:
`,\s*(\d{4})$` — a comma, optional whitespace, then exactly four
digits ending the string. -/
def restComma4 : List Char → Option Nat
  | ',' :: r =>
    match r.dropWhile isPySpace with
    | [a, b, c, d] =>
      if isPyDigit a && isPyDigit b && isPyDigit c && isPyDigit d then
        some (digitsVal [a, b, c, d])
      else none
    | _ => none
  | _ => none

/-- Matches the remainder of pattern 2 after the greedy group:
`\s*\((\d{4})\)$`. -/
def restParen4 (l : List Char) : Option Nat :=
  match l.dropWhile isPySpace with
  | '(' :: r =>
    match r with
    | [a, b, c, d, ')'] =>
      if isPyDigit a && isPyDigit b && isPyDigit c && isPyDigit d then
        some (digitsVal [a, b, c, d])
      else none
    | _ => none
  | _ => none

/-- Greedy anchored match `^(.+)REST$`: try the longest possible
nonempty group first (the backtracking order of a greedy `(.+)`),
checking the remainder with `rest`. -/
def greedyMatch (rest : List Char → Option Nat) (s : List Char) :
    Nat → Option (List Char × Nat)
  | 0 => none
  | k + 1 =>
    if k + 1 ≤ s.length then
      match rest (s.drop (k + 1)) with
      | some y => some (s.take (k + 1), y)
      | none => greedyMatch rest s k
    else greedyMatch rest s k

/-- `_extract_movie_info(title)`: returns the extracted title string and
optional year. -/
def extract_movie_info (title : String) : String × Option Int :=
  let t := pyStrip title.toList
  match greedyMatch restComma4 t t.length with
  | some (g1, y) => (String.mk (pyStrip g1), some (y : Int))
  | none =>
    match greedyMatch restParen4 t t.length with
    | some (g1, y) => (String.mk (pyStrip g1), some (y : Int))
    | none => (String.mk t, none)

/-! ## `_extract_review_text` (rss_ingestion.py lines 221-231)

```python
clean_text = re.sub(r"<[^>]+>", "", description)
clean_text = clean_text.strip()
clean_text = re.sub(r"★+[½]?", "", clean_text)
clean_text = re.sub(r"\s+", " ", clean_text).strip()
return clean_text if clean_text and len(clean_text) > 10 else None
```
-/

/-- `re.sub(r"<[^>]+>", "", s)`, fuelled so the recursion is structural
(each step consumes at least one character, so fuel = input length is
always enough): drop every `<`, at-least-one non-`>` characters, `>`
span (leftmost, non-overlapping). -/
def removeTagsF : Nat → List Char → List Char
  | 0, l => l
  | _ + 1, [] => []
  | f + 1, c :: rest =>
    if c = '<' then
      let pre := rest.takeWhile (fun d => d ≠ '>')
      match rest.drop pre.length with
      | '>' :: after =>
        if pre.isEmpty then
          -- "<>" has no non-empty inner run: no match starts here.
          c :: removeTagsF f rest
        else removeTagsF f after
      | _ => c :: removeTagsF f rest
    else c :: removeTagsF f rest

/-- `re.sub(r"<[^>]+>", "", s)`. -/
def removeTags (l : List Char) : List Char := removeTagsF l.length l

/-- `re.sub(r"★+[½]?", "", s)`, fuelled: drop every maximal star run
together with one optional immediately following half glyph. -/
def removeStarRunsF : Nat → List Char → List Char
  | 0, l => l
  | _ + 1, [] => []
  | f + 1, c :: rest =>
    if c = '★' then
      match rest.dropWhile (fun d => d = '★') with
      | '½' :: t => removeStarRunsF f t
      | other => removeStarRunsF f other
    else c :: removeStarRunsF f rest

/-- `re.sub(r"★+[½]?", "", s)`. -/
def removeStarRuns (l : List Char) : List Char := removeStarRunsF l.length l

/-- `re.sub(r"\s+", " ", s)`, fuelled: collapse each maximal whitespace
run to a single space. -/
def collapseWsF : Nat → List Char → List Char
  | 0, l => l
  | _ + 1, [] => []
  | f + 1, c :: rest =>
    if isPySpace c then ' ' :: collapseWsF f (rest.dropWhile isPySpace)
    else c :: collapseWsF f rest

/-- `re.sub(r"\s+", " ", s)`. -/
def collapseWs (l : List Char) : List Char := collapseWsF l.length l

/-- The cleaning pipeline of `_extract_review_text`: tag removal,
strip, star-run removal, whitespace collapse, strip. -/
def cleaned_review_text (description : String) : List Char :=
  pyStrip (collapseWs (removeStarRuns (pyStrip (removeTags description.toList))))

/-- `_extract_review_text(description)`: the cleaned text, or `None`
when it is empty or at most 10 characters long. -/
def extract_review_text (description : String) : Option String :=
  let c4 := cleaned_review_text description
  if c4 ≠ [] ∧ c4.length > 10 then some (String.mk c4) else none

/-! ## Python numeric conversions `int(...)` and `float(...)`

`int(text)` and `float(text)` as used on feed element text.  The model
covers optionally signed decimal literals (with exponent for `float`);
the exotic accepted spellings (`inf`, `nan`, underscore separators) do
not arise on the paths studied and are modelled as failures. -/

/-- Splits an optional leading sign, returning the sign as `1` or `-1`. -/
def splitSign : List Char → Int × List Char
  | '+' :: r => (1, r)
  | '-' :: r => (-1, r)
  | l => (1, l)

/-- `int(text)`: whitespace-stripped, optionally signed decimal. -/
def pyToInt (s : String) : Option Int :=
  let l := pyStrip s.toList
  let (sgn, l) := splitSign l
  if l ≠ [] ∧ l.all isPyDigit then some (sgn * (digitsVal l : Int)) else none

/-- Optional exponent suffix `([eE][+-]?\d+)?` consumed to end of input. -/
def parseExpSuffix : List Char → Option Int
  | [] => some 0
  | c :: r =>
    if c = 'e' ∨ c = 'E' then
      let (es, r1) := splitSign r
      let ds := r1.takeWhile isPyDigit
      if ds ≠ [] ∧ r1.drop ds.length = [] then some (es * (digitsVal ds : Int))
      else none
    else none

/-- `float(text)` restricted to finite decimal literals, as a rational. -/
def pyToFloat (s : String) : Option ℚ :=
  let l := pyStrip s.toList
  let (sgn, l) := splitSign l
  let ip := l.takeWhile isPyDigit
  let rest := l.drop ip.length
  let mant : Option (ℚ × List Char) :=
    match rest with
    | '.' :: r1 =>
      let fp := r1.takeWhile isPyDigit
      if ip = [] ∧ fp = [] then none
      else some ((digitsVal ip : ℚ) + (digitsVal fp : ℚ) / (10 : ℚ) ^ fp.length,
                 r1.drop fp.length)
    | _ => if ip = [] then none else some ((digitsVal ip : ℚ), rest)
  match mant with
  | none => none
  | some (m, r) =>
    match parseExpSuffix r with
    | none => none
    | some e => some ((sgn : ℚ) * m * (10 : ℚ) ^ e)

/-! ## Datetimes and `_parse_pub_date` (rss_ingestion.py lines 233-287)

`datetime` values are modelled by their calendar/clock components; the
pipeline only ever uses the calendar date of a parsed value (`.date()`
in the ingestion router), so timezone offsets are validated during
parsing but not stored. -/

/-- A Python `datetime` (component view). -/
structure PyDateTime where
  year : Nat
  month : Nat
  day : Nat
  hour : Nat
  minute : Nat
  second : Nat
  deriving Repr, DecidableEq

/-- Gregorian leap year. -/
def isLeap (y : Nat) : Bool := y % 4 = 0 && (y % 100 ≠ 0 || y % 400 = 0)

/-- Days in a month (proleptic Gregorian, as `datetime` uses). -/
def daysInMonth (y m : Nat) : Nat :=
  if m = 2 then (if isLeap y then 29 else 28)
  else if m = 4 ∨ m = 6 ∨ m = 9 ∨ m = 11 then 30
  else 31

/-- The `datetime(...)` constructor: validates every component
(`ValueError` on failure, modelled as `none`). -/
def mkDateTime (y m d h mi s : Nat) : Option PyDateTime :=
  if 1 ≤ y ∧ y ≤ 9999 ∧ 1 ≤ m ∧ m ≤ 12 ∧ 1 ≤ d ∧ d ≤ daysInMonth y m ∧
     h ≤ 23 ∧ mi ≤ 59 ∧ s ≤ 59 then
    some ⟨y, m, d, h, mi, s⟩
  else none

/-- `datetime.strptime(text, "%Y-%m-%d")`: exactly four year digits,
then one-or-two-digit month and day separated by `-`, whole string
consumed, components validated. -/
def strptimeYmd (s : String) : Option PyDateTime :=
  let l := s.toList
  let ys := l.takeWhile isPyDigit
  if ys.length = 4 then
    match l.drop 4 with
    | '-' :: r1 =>
      let ms := r1.takeWhile isPyDigit
      if 1 ≤ ms.length ∧ ms.length ≤ 2 then
        match r1.drop ms.length with
        | '-' :: r2 =>
          let ds := r2.takeWhile isPyDigit
          if 1 ≤ ds.length ∧ ds.length ≤ 2 ∧ r2.drop ds.length = [] then
            mkDateTime (digitsVal ys) (digitsVal ms) (digitsVal ds) 0 0 0
          else none
        | _ => none
      else none
    | _ => none
  else none

/-- `\s+`: at least one whitespace character, consumed greedily. -/
def skipWs1 : List Char → Option (List Char)
  | [] => none
  | c :: r => if isPySpace c then some (r.dropWhile isPySpace) else none

/-- A one-or-two digit numeric field (`%d`, `%H`, `%M`, `%S`-style). -/
def num2 (l : List Char) : Option (Nat × List Char) :=
  let ds := l.takeWhile isPyDigit
  if 1 ≤ ds.length ∧ ds.length ≤ 2 then some (digitsVal ds, l.drop ds.length)
  else none

/-- An exactly-four-digit year field (`%Y`). -/
def num4 (l : List Char) : Option (Nat × List Char) :=
  let ds := l.takeWhile isPyDigit
  if ds.length = 4 then some (digitsVal ds, l.drop 4) else none

/-- Abbreviated weekday names for `%a` (C locale, matched
case-insensitively by `strptime`). -/
def weekdayNames : List (List Char) :=
  ["mon", "tue", "wed", "thu", "fri", "sat", "sun"].map String.toList

/-- Abbreviated month names for `%b`, in month order. -/
def monthNames : List (List Char) :=
  ["jan", "feb", "mar", "apr", "may", "jun",
   "jul", "aug", "sep", "oct", "nov", "dec"].map String.toList

/-- `%b`: match an abbreviated month name case-insensitively, returning
its 1-based number. -/
def parseMonthName (l : List Char) : Option (Nat × List Char) :=
  let w := pyLower (l.take 3)
  match monthNames.indexOf? w with
  | some i => if l.length ≥ 3 then some (i + 1, l.drop 3) else none
  | none => none

/-- `%a,`: abbreviated weekday name (case-insensitive) then a comma. -/
def parseWeekdayComma (l : List Char) : Option (List Char) :=
  if weekdayNames.contains (pyLower (l.take 3)) then
    match l.drop 3 with
    | ',' :: r => some r
    | _ => none
  else none

/-- The shared front `"%a, %d %b %Y %H:%M:%S"` of the three RFC-2822
style formats, returning the numeric fields and the unconsumed
remainder. -/
def parseRfcCore (l : List Char) :
    Option ((Nat × Nat × Nat × Nat × Nat × Nat) × List Char) := do
  let r1 ← parseWeekdayComma l
  let r2 ← skipWs1 r1
  let (d, r3) ← num2 r2
  let r4 ← skipWs1 r3
  let (mon, r5) ← parseMonthName r4
  let r6 ← skipWs1 r5
  let (y, r7) ← num4 r6
  let r8 ← skipWs1 r7
  let (h, r9) ← num2 r8
  match r9 with
  | ':' :: r10 => do
    let (mi, r11) ← num2 r10
    match r11 with
    | ':' :: r12 => do
      let (s, r13) ← num2 r12
      pure ((y, mon, d, h, mi, s), r13)
    | _ => none
  | _ => none

/-- `%z`: `[+-]HH[:?]MM` (UTC-offset magnitude under 24 hours, as the
`timezone` constructor requires) or a literal uppercase `Z`.  The
fractional/seconds extensions never occur in the feeds studied and are
not modelled.  Returns the unconsumed remainder; the offset itself is
discarded (see `PyDateTime`). -/
def parseZ : List Char → Option (List Char)
  | 'Z' :: r => some r
  | c :: r =>
    if c = '+' ∨ c = '-' then
      let r1 := match r with
        | h1 :: h2 :: ':' :: m1 :: m2 :: rest => some (h1, h2, m1, m2, rest)
        | h1 :: h2 :: m1 :: m2 :: rest => some (h1, h2, m1, m2, rest)
        | _ => none
      match r1 with
      | some (h1, h2, m1, m2, rest) =>
        if isPyDigit h1 ∧ isPyDigit h2 ∧ isPyDigit m1 ∧ isPyDigit m2 ∧
           digitsVal [h1, h2] * 60 + digitsVal [m1, m2] < 24 * 60 then
          some rest
        else none
      | none => none
    else none
  | [] => none

/-- Format `"%a, %d %b %Y %H:%M:%S %z"`. -/
def parsePubFmt1 (l : List Char) : Option PyDateTime := do
  let ((y, mon, d, h, mi, s), r) ← parseRfcCore l
  let r1 ← skipWs1 r
  let r2 ← parseZ r1
  if r2 = [] then mkDateTime y mon d h mi s else none

/-- Format `"%a, %d %b %Y %H:%M:%S GMT"` (strptime literals are matched
case-insensitively). -/
def parsePubFmt2 (l : List Char) : Option PyDateTime := do
  let ((y, mon, d, h, mi, s), r) ← parseRfcCore l
  let r1 ← skipWs1 r
  if pyLower r1 = "gmt".toList then mkDateTime y mon d h mi s else none

/-- Format `"%a, %d %b %Y %H:%M:%S"` (no zone, caller assumes UTC). -/
def parsePubFmt3 (l : List Char) : Option PyDateTime := do
  let ((y, mon, d, h, mi, s), r) ← parseRfcCore l
  if r = [] then mkDateTime y mon d h mi s else none

/-- Format `"%Y-%m-%dT%H:%M:%S%z"` (ISO-8601 with offset). -/
def parsePubFmt4 (l : List Char) : Option PyDateTime := do
  let (y, r1) ← num4 l
  match r1 with
  | '-' :: r2 => do
    let (mon, r3) ← num2 r2
    match r3 with
    | '-' :: r4 => do
      let (d, r5) ← num2 r4
      match r5 with
      | t :: r6 =>
        if t.toLower = 't' then do
          let (h, r7) ← num2 r6
          match r7 with
          | ':' :: r8 => do
            let (mi, r9) ← num2 r8
            match r9 with
            | ':' :: r10 => do
              let (s, r11) ← num2 r10
              let r12 ← parseZ r11
              if r12 = [] then mkDateTime y mon d h mi s else none
            | _ => none
          | _ => none
        else none
      | [] => none
    | _ => none
  | _ => none

/-- The month-name dictionary of the last-resort branch
(`'Jan': 1, ..., 'Dec': 12`); lookup is exact (case-sensitive) with
default January. -/
def monthsGet (w : List Char) : Nat :=
  let tbl : List (String × Nat) :=
    [("Jan", 1), ("Feb", 2), ("Mar", 3), ("Apr", 4), ("May", 5), ("Jun", 6),
     ("Jul", 7), ("Aug", 8), ("Sep", 9), ("Oct", 10), ("Nov", 11), ("Dec", 12)]
  match tbl.find? (fun p => p.1.toList = w) with
  | some p => p.2
  | none => 1

/-- A `\w+` capture: at least one word character, consumed greedily. -/
def word1 (l : List Char) : Option (List Char × List Char) :=
  let w := l.takeWhile isPyWord
  if w ≠ [] then some (w, l.drop w.length) else none

/-- A `\d+` capture: at least one digit, consumed greedily. -/
def digits1 (l : List Char) : Option (List Char × List Char) :=
  let w := l.takeWhile isPyDigit
  if w ≠ [] then some (w, l.drop w.length) else none

/-- The last-resort extraction
`re.match(r"(\w+),\s*(\d+)\s+(\w+)\s+(\d+)\s+(\d+):(\d+):(\d+)", ...)`
followed by `datetime(...)` construction: a prefix match, trailing
input ignored, unknown month names defaulting to January. -/
def parsePubFallback (l : List Char) : Option PyDateTime := do
  let (_, r1) ← word1 l
  match r1 with
  | ',' :: r2 => do
    let r3 := r2.dropWhile isPySpace
    let (day, r4) ← digits1 r3
    let r5 ← skipWs1 r4
    let (monName, r6) ← word1 r5
    let r7 ← skipWs1 r6
    let (year, r8) ← digits1 r7
    let r9 ← skipWs1 r8
    let (hour, r10) ← digits1 r9
    match r10 with
    | ':' :: r11 => do
      let (minute, r12) ← digits1 r11
      match r12 with
      | ':' :: r13 => do
        let (second, _) ← digits1 r13
        mkDateTime (digitsVal year) (monthsGet monName) (digitsVal day)
          (digitsVal hour) (digitsVal minute) (digitsVal second)
      | _ => none
    | _ => none
  | _ => none

/-- `_parse_pub_date(pub_date_str)`: empty string is falsy and returns
`None`; otherwise the stripped string is tried against the four
strptime formats in order and then the last-resort regex. -/
def parse_pub_date (s : String) : Option PyDateTime :=
  if s = "" then none
  else
    let cleaned := pyStrip s.toList
    (parsePubFmt1 cleaned).orElse fun _ =>
    (parsePubFmt2 cleaned).orElse fun _ =>
    (parsePubFmt3 cleaned).orElse fun _ =>
    (parsePubFmt4 cleaned).orElse fun _ =>
    parsePubFallback cleaned

/-! ## RSS items and `_parse_rss_item` (rss_ingestion.py lines 78-180)

An `item` element is modelled by the child elements the parser looks
up.  Each field is `Option (Option String)`: the outer layer is
`item.find(...)` (element present or not), the inner layer the
element's `.text` (which `ElementTree` reports as `None` for an empty
element). -/

/-- The child elements of one RSS `item` consulted by the parser. -/
structure RssItem where
  title : Option (Option String)
  pubDate : Option (Option String)
  filmTitle : Option (Option String)
  filmYear : Option (Option String)
  watchedDate : Option (Option String)
  memberRating : Option (Option String)
  rewatch : Option (Option String)
  description : Option (Option String)
  deriving Repr, DecidableEq

/-- The Python truthiness test `elem is not None and elem.text` used on
the structured elements: the element must exist and its text must be a
non-empty string. -/
def elemTruthyText : Option (Option String) → Option String
  | some (some s) => if s = "" then none else some s
  | _ => none

/-- The diary-entry dictionary produced by `_parse_rss_item`. -/
structure DiaryEntryData where
  title : String
  year : Option Int
  watched_date : Option PyDateTime
  rating : Option ℚ
  is_rewatch : Bool
  review_text : Option String
  deriving Repr, DecidableEq

/-- `title_elem.text or ""`. -/
def title_text_of (item : RssItem) : String :=
  match item.title with
  | some t? => t?.getD ""
  | none => ""

/-- `pub_date_elem.text or ""`. -/
def pub_date_text_of (item : RssItem) : String :=
  match item.pubDate with
  | some p? => p?.getD ""
  | none => ""

/-- `description_elem.text or "" if description_elem is not None else ""`. -/
def description_text_of (item : RssItem) : String :=
  match item.description with
  | some d? => d?.getD ""
  | none => ""

/-- The structured-first movie title/year resolution (lines 114-125):
prefers the namespaced `filmTitle`/`filmYear` elements, falling back to
`_extract_movie_info` on the display title.  `none` models the uncaught
`ValueError` of `int(film_year_elem.text)` on unparseable year text. -/
def movie_info_of (item : RssItem) : Option (String × Option Int) :=
  match elemTruthyText item.filmTitle with
  | some ft =>
    match elemTruthyText item.filmYear with
    | some fy => (pyToInt fy).map (fun yr => (ft, some yr))
    | none => some (ft, none)
  | none => some (extract_movie_info (title_text_of item))

/-- The watch-date resolution (lines 127-136): the structured
`watchedDate` element via `%Y-%m-%d` when it parses, otherwise the
publication date through `_parse_pub_date`. -/
def watched_date_of (item : RssItem) : Option PyDateTime :=
  match elemTruthyText item.watchedDate with
  | some wd =>
    match strptimeYmd wd with
    | some d => some d
    | none => parse_pub_date (pub_date_text_of item)
  | none => parse_pub_date (pub_date_text_of item)

/-- The rating resolution (lines 142-154): the structured
`memberRating` element through `float(...)` (a `ValueError` is passed
over), otherwise the star-glyph fallback applied to the item's display
title text. -/
def rating_of (item : RssItem) : Option ℚ :=
  match (elemTruthyText item.memberRating).bind pyToFloat with
  | some r => some r
  | none => (extract_rating_info (title_text_of item)).rating

/-- The rewatch resolution (lines 156-160): the structured `rewatch`
element compared to `"yes"` after lowercasing; `False` when the element
is absent or empty. -/
def rewatch_of (item : RssItem) : Bool :=
  match elemTruthyText item.rewatch with
  | some s => pyLower s.toList = "yes".toList
  | none => false

/-- `_parse_rss_item(item)`: `None` when the `title` or `pubDate`
element is missing, when the structured `filmYear` text fails `int(...)`
(an uncaught `ValueError` hits the catch-all and drops the item), or
when no watch date can be resolved. -/
def parse_rss_item (item : RssItem) : Option DiaryEntryData :=
  match item.title, item.pubDate with
  | some _, some _ =>
    match movie_info_of item with
    | none => none
    | some (movie_title, movie_year) =>
      match watched_date_of item with
      | none => none
      | some wd =>
        some { title := movie_title
               year := movie_year
               watched_date := some wd
               rating := rating_of item
               is_rewatch := rewatch_of item
               review_text := extract_review_text (description_text_of item) }
  | _, _ => none

/-- `_parse_rss_content` over an already-parsed document, modelled as
the list of its `item` elements (`root.findall(".//item")` in document
order): parse each item, keep the successful ones. -/
def parse_rss_content (items : List RssItem) : List DiaryEntryData :=
  items.filterMap parse_rss_item

/-! ## TMDB matcher (tmdb_service.py lines 16-45) -/

/-- One search result dictionary from the TMDB response; only the `id`
field is consulted by the ingestion loop for matching (`.get("id")`,
absent modelled as `none`). -/
structure TmdbMovie where
  id : Option Nat
  deriving Repr, DecidableEq

/-- The outcome of the HTTP search round-trip for one entry: any
exception (network error, timeout, non-2xx status such as a rate
limit, malformed JSON body) versus a ranked result list. -/
inductive TmdbSearchOutcome where
  | failure
  | ok (results : List TmdbMovie)
  deriving Repr, DecidableEq

/-- `TMDBService.search_movie`: no-match (`None`) when the API key is
unset or empty (falsy), when the request raises, or when the result
list is empty; otherwise the first result in the source's order. -/
def search_movie (api_key : Option String) (outcome : TmdbSearchOutcome) :
    Option TmdbMovie :=
  match api_key with
  | none => none
  | some k =>
    if k = "" then none
    else
      match outcome with
      | .failure => none
      | .ok [] => none
      | .ok (r :: _) => some r

/-! ## The ingestion background job (routers/ingestion.py lines 148-268) -/

/-- `SessionStatus` (models.py). -/
inductive SessionStatus where
  | processing
  | completed
  | failed
  deriving Repr, DecidableEq

/-- A Python `date` (the `.date()` of a parsed datetime). -/
structure PyDate where
  year : Nat
  month : Nat
  day : Nat
  deriving Repr, DecidableEq

/-- `datetime.date()`. -/
def PyDateTime.toDate (d : PyDateTime) : PyDate :=
  ⟨d.year, d.month, d.day⟩

/-- A persisted `DiaryEntry` row as written by the ingestion loop. -/
structure StoredEntry where
  title : String
  year : Option Int
  rating : Option ℚ
  watched_date : Option PyDate
  review_text : Option String
  is_rewatch : Bool
  tmdb_id : Option Nat
  tmdb_enriched : Bool
  tmdb_failed : Bool
  deriving Repr, DecidableEq

/-- The `DiaryEntry` row built for one parsed entry: TMDB match sets
`tmdb_id`/`tmdb_enriched`, no-match sets `tmdb_failed` (the other
flags keep their model defaults `False`). -/
def mkStoredEntry (e : DiaryEntryData) (tmdb : Option TmdbMovie) : StoredEntry :=
  { title := e.title
    year := e.year
    rating := e.rating
    watched_date := e.watched_date.map PyDateTime.toDate
    review_text := e.review_text
    is_rewatch := e.is_rewatch
    tmdb_id := match tmdb with | some m => m.id | none => none
    tmdb_enriched := tmdb.isSome
    tmdb_failed := tmdb.isNone }

/-- The progress value committed after the `i`-th entry (0-based):
`30 + int((i + 1) / total_entries * 60)`.  The Python expression rounds
through binary floating point before truncation; it is modelled as the
exact rational floor `30 + (i + 1) * 60 / n`. -/
def perEntryProgress (n i : Nat) : Nat := 30 + ((i + 1) * 60) / n

/-- The sequence of progress values committed to the session row over a
run that reaches `Completed`: `0` at session creation, `10` when the
job picks the session up, `30` after the feed fetch, one value per
enriched entry, and `100` at finalization. -/
def jobProgressTrace (n : Nat) : List Nat :=
  [0, 10, 30] ++ (List.range n).map (perEntryProgress n) ++ [100]

/-- The observable result of one `process_rss_data` run. -/
structure JobRunResult where
  status : SessionStatus
  progress : Nat
  error_message : Option String
  stored : List StoredEntry
  trace : List Nat
  deriving Repr, DecidableEq

/-- `process_rss_data`, driven by the outcome of the feed fetch and, per
parsed entry, the outcome of its TMDB search round-trip.  A fetch
failure (`LetterboxdRSSError`) leaves progress at its last committed
value and marks the session `Failed` with the error text; a successful
fetch enriches every entry in order (a no-match search marks the entry
`tmdb_failed` and the loop continues), then finalizes to `Completed`
at progress `100`. -/
def process_rss_data (fetch : Except String (List DiaryEntryData))
    (api_key : Option String) (searches : Nat → TmdbSearchOutcome) :
    JobRunResult :=
  match fetch with
  | .error msg =>
    { status := .failed
      progress := 10
      error_message := some msg
      stored := []
      trace := [0, 10] }
  | .ok entries =>
    let n := entries.length
    let stored := entries.enum.map fun p =>
      mkStoredEntry p.2 (search_movie api_key (searches p.1))
    { status := .completed
      progress := 100
      error_message := none
      stored := stored
      trace := jobProgressTrace n }

/-! ## Stats aggregation (services/stats_service.py)

`DiaryEntry` rows as read back by the aggregator.  `MovieDetails.genres`
is persisted as a JSON array of genre ids and parsed back with
`json.loads`; the round trip is lossless, so the field is modelled
directly as the id list. -/

/-- The slice of a `MovieDetails` row read by the aggregator. -/
structure MovieDetailsRec where
  tmdb_id : Nat
  director : Option String
  genres : List Nat
  deriving Repr, DecidableEq

/-- The slice of a `DiaryEntry` row read by the aggregator, with its
`movie_details` relationship resolved. -/
structure DbDiaryEntry where
  rating : Option ℚ
  year : Option Int
  tmdb_enriched : Bool
  tmdb_id : Option Nat
  movie_details : Option MovieDetailsRec
  deriving Repr, DecidableEq

/-- The enriched-entry filter
`e.tmdb_enriched and e.tmdb_id and hasattr(e, 'movie_details') and e.movie_details`:
note that `e.tmdb_id` is a truthiness test, so a zero id is rejected. -/
def isEnrichedEntry (e : DbDiaryEntry) : Bool :=
  e.tmdb_enriched &&
    (match e.tmdb_id with | some i => i ≠ 0 | none => false) &&
    e.movie_details.isSome

/-- The TMDB genre-id table of `_convert_genre_ids_to_names`. -/
def genreMap : List (Nat × String) :=
  [(28, "Action"), (12, "Adventure"), (16, "Animation"), (35, "Comedy"),
   (80, "Crime"), (99, "Documentary"), (18, "Drama"), (10751, "Family"),
   (14, "Fantasy"), (36, "History"), (27, "Horror"), (10402, "Music"),
   (9648, "Mystery"), (10749, "Romance"), (878, "Science Fiction"),
   (10770, "TV Movie"), (53, "Thriller"), (10752, "War"), (37, "Western")]

/-- `_convert_genre_ids_to_names`: table lookup with the
`"Genre_<id>"` fallback (every input is an `int` in the typed model,
so the `isinstance` guard always passes). -/
def convert_genre_ids_to_names (ids : List Nat) : List String :=
  ids.map fun i =>
    match genreMap.find? (fun p => p.1 = i) with
    | some p => p.2
    | none => "Genre_" ++ toString i

/-- One `counts[k] = counts.get(k, 0) + 1` step on a Python dict held
as an insertion-ordered association list. -/
def bumpCount (l : List (String × Nat)) (k : String) : List (String × Nat) :=
  match l with
  | [] => [(k, 1)]
  | (a, c) :: t => if a = k then (a, c + 1) :: t else (a, c) :: bumpCount t k

/-- Counting loop over a stream of names, giving the dict's items in
insertion (first-seen) order. -/
def countNames (names : List String) : List (String × Nat) :=
  names.foldl bumpCount []

/-- One step of Python's stable descending `sorted(..., reverse=True)`
on count: the incoming element (earlier in the original order) is
placed before the first element whose count is not larger. -/
def insertDesc (x : String × Nat) : List (String × Nat) → List (String × Nat)
  | [] => [x]
  | y :: ys => if x.2 < y.2 then y :: insertDesc x ys else x :: y :: ys

/-- `sorted(counts.items(), key=lambda x: x[1], reverse=True)`:
Python's sort is stable, which for the linearised model is the stable
insertion sort by descending count. -/
def sortCountsDesc (l : List (String × Nat)) : List (String × Nat) :=
  l.foldr insertDesc []

/-- The stream of genre names contributed by the enriched entries, in
entry order (an entry without resolved details, or whose genre list is
empty, contributes nothing — matching the truthiness guard and the
empty JSON array). -/
def genreStreamOf (enriched : List DbDiaryEntry) : List String :=
  enriched.foldl (fun acc e =>
    match e.movie_details with
    | some md => acc ++ (convert_genre_ids_to_names md.genres).filter (fun n => n ≠ "")
    | none => acc) []

/-- The stream of director names contributed by the enriched entries
(the guard `entry.movie_details and entry.movie_details.director` is a
truthiness test, so an empty-string director contributes nothing). -/
def directorStreamOf (enriched : List DbDiaryEntry) : List String :=
  enriched.foldl (fun acc e =>
    match e.movie_details with
    | some md =>
      match md.director with
      | some d => if d ≠ "" then acc ++ [d] else acc
      | none => acc
    | none => acc) []

/-- `_get_top_genres`: count, sort by descending count (stable), take 5
names. -/
def get_top_genres (enriched : List DbDiaryEntry) : List String :=
  ((sortCountsDesc (countNames (genreStreamOf enriched))).take 5).map Prod.fst

/-- `_get_top_directors`. -/
def get_top_directors (enriched : List DbDiaryEntry) : List String :=
  ((sortCountsDesc (countNames (directorStreamOf enriched))).take 5).map Prod.fst

/-! ### CPython set iteration order

`compute_user_stats` and the stats router both build
`list(set(years))[:5]`.  A CPython `set` of small integer keys is an
open-addressing hash table iterated in slot order; this model covers
the regime the year lists live in — at most four distinct keys, so the
initial 8-slot table never resizes — with `hash(n) = n` (exact for
integers in the modelled range; the CPython special case `hash(-1) = -2`
is outside the 4-digit year domain and not modelled). -/

/-- Insert one key into the 8-slot table with CPython's probe sequence
(`perturb` shifted by 5 each round, `i = i*5 + perturb + 1`). -/
def pySetAdd (t : List (Option Int)) (x : Int) : List (Option Int) :=
  let h := (x % (2 ^ 64 : Int)).toNat
  go 64 h (h % 8) t
where
  go : Nat → Nat → Nat → List (Option Int) → List (Option Int)
  | 0, _, _, t => t
  | fuel + 1, perturb, i, t =>
    match t.getD i none with
    | none => t.set i (some x)
    | some y =>
      if y = x then t
      else
        let p := perturb / 32
        go fuel p ((i * 5 + p + 1) % 8) t

/-- `list(set(xs))` for at most four distinct small integers: insert in
list order, read back in slot order. -/
def pySetList (xs : List Int) : List Int :=
  (xs.foldl pySetAdd (List.replicate 8 none)).filterMap id

/-- The `top_years` computation shared by `compute_user_stats`
(stats_service.py lines 29-30) and the stats router (stats.py lines
43-44): `list(set(years))[:5]` over the non-`None` years.  The result
is bound to a local that neither call site includes in its returned
payload. -/
def compute_top_years (entries : List DbDiaryEntry) : List Int :=
  (pySetList (entries.filterMap (fun e => e.year))).take 5

/-- The dictionary returned by `compute_user_stats`. -/
structure StatsDict where
  total_films : Nat
  total_hours : ℚ
  average_rating : Option ℚ
  top_genres : List String
  top_directors : List String
  enrichment_rate : ℚ
  deriving Repr, DecidableEq

/-- `StatsService.compute_user_stats`. -/
def compute_user_stats (entries : List DbDiaryEntry) : StatsDict :=
  let total_films := entries.length
  let rated := entries.filterMap (fun e => e.rating)
  let average_rating : Option ℚ :=
    if rated ≠ [] then some (rated.sum / (rated.length : ℚ)) else none
  let enriched := entries.filter isEnrichedEntry
  { total_films := total_films
    total_hours := 0
    average_rating := average_rating
    top_genres := get_top_genres enriched
    top_directors := get_top_directors enriched
    enrichment_rate :=
      if total_films > 0 then (enriched.length : ℚ) / (total_films : ℚ) else 0 }

/-! ## The stats endpoint (routers/stats.py lines 11-57) -/

/-- The `StatsResponse` payload of the stats endpoint (the current
handler fills the top lists with fixed placeholder values). -/
structure StatsResponseRec where
  session_id : String
  total_films : Nat
  total_hours : ℚ
  average_rating : Option ℚ
  top_genres : List String
  top_directors : List String
  deriving Repr, DecidableEq

/-- `get_stats(session_id)`: HTTP errors are modelled as
`(status code, detail)` pairs; the non-completed detail string
interpolates the session status in the source and is abbreviated
here. -/
def get_stats (session_id : String) (session : Option SessionStatus)
    (entries : List DbDiaryEntry) : Except (Nat × String) StatsResponseRec :=
  match session with
  | none => .error (404, "Session not found")
  | some st =>
    if st ≠ SessionStatus.completed then
      .error (400, "Session not completed")
    else if entries.isEmpty then
      .error (404, "No diary entries found")
    else
      let rated := entries.filterMap (fun e => e.rating)
      .ok { session_id := session_id
            total_films := entries.length
            total_hours := 0
            average_rating :=
              if rated ≠ [] then some (rated.sum / (rated.length : ℚ)) else none
            top_genres := ["Drama", "Action"]
            top_directors := ["Christopher Nolan", "Martin Scorsese"] }

/-! ## Specification-side definitions

These follow the specification's words, for comparison with the code
embeddings above. -/

/-- The distinct values of a stream in order of first appearance. -/
def dedupFirstSeen {α : Type} [DecidableEq α] (l : List α) : List α :=
  l.foldl (fun acc v => if v ∈ acc then acc else acc ++ [v]) []

/-- Stable insertion step for a descending sort keyed by `key`. -/
def insertKeyDesc {α : Type} (key : α → Nat) (x : α) : List α → List α
  | [] => [x]
  | y :: ys => if key x < key y then y :: insertKeyDesc key x ys else x :: y :: ys

/-- Stable descending sort by `key`. -/
def sortKeyDesc {α : Type} (key : α → Nat) (l : List α) : List α :=
  l.foldr (insertKeyDesc key) []

/-- Spec-side top list: the at-most-5 most frequent values of the
stream, sorted by descending occurrence count, ties among equal counts
broken by order of first appearance in the stream (stable descending
sort of the first-seen-ordered distinct values). -/
def specTopByFrequency {α : Type} [DecidableEq α] (stream : List α) : List α :=
  (sortKeyDesc (fun v => stream.count v) (dedupFirstSeen stream)).take 5

/-! ## Helper lemmas -/

/-- A string without a star glyph has no star run. -/
theorem firstStarRun_of_not_contains {l : List Char}
    (h : l.contains '★' = false) : firstStarRun l = none := by
  induction l with
  | nil => rfl
  | cons c t ih =>
    simp only [List.contains_cons, Bool.or_eq_false_iff] at h
    have hc : ¬ c = '★' := by
      intro hc; subst hc; simp at h
    simp only [firstStarRun, if_neg hc]
    exact ih h.2

/-- A star run has at least one star. -/
theorem firstStarRun_pos {l : List Char} {n : Nat}
    (h : firstStarRun l = some n) : 1 ≤ n := by
  induction l with
  | nil => simp [firstStarRun] at h
  | cons c t ih =>
    simp only [firstStarRun] at h
    split at h
    · injection h with h
      omega
    · exact ih h

/-- A successfully parsed item carries exactly the resolved rating,
rewatch flag, and a present watch date. -/
theorem parse_rss_item_fields {it : RssItem} {e : DiaryEntryData}
    (h : parse_rss_item it = some e) :
    e.rating = rating_of it ∧ e.is_rewatch = rewatch_of it ∧
      e.watched_date.isSome := by
  unfold parse_rss_item at h
  split at h
  · split at h
    · exact absurd h (by simp)
    · split at h
      · exact absurd h (by simp)
      · injection h with h
        subst h
        exact ⟨rfl, rfl, rfl⟩
  · exact absurd h (by simp)

/-! ## Claims -/

/-- C3: fallback title/year extraction tries `"Title, YYYY"` first,
then `"Title (YYYY)"`; if neither matches, the whole trimmed string
becomes the title with year `None`; in particular `"Parasite, 2019"`
and `"Parasite (2019)"` both yield `("Parasite", 2019)` and
`"Parasite"` yields `("Parasite", None)`. -/
theorem title_year_extraction_ordered (s : String) :
    extract_movie_info "Parasite, 2019" = ("Parasite", some 2019) ∧
    extract_movie_info "Parasite (2019)" = ("Parasite", some 2019) ∧
    extract_movie_info "Parasite" = ("Parasite", none) ∧
    (∀ g y, greedyMatch restComma4 (pyStrip s.toList) (pyStrip s.toList).length
        = some (g, y) →
      extract_movie_info s = (String.mk (pyStrip g), some (y : Int))) ∧
    (greedyMatch restComma4 (pyStrip s.toList) (pyStrip s.toList).length = none →
      ∀ g y, greedyMatch restParen4 (pyStrip s.toList) (pyStrip s.toList).length
          = some (g, y) →
        extract_movie_info s = (String.mk (pyStrip g), some (y : Int))) ∧
    (greedyMatch restComma4 (pyStrip s.toList) (pyStrip s.toList).length = none →
      greedyMatch restParen4 (pyStrip s.toList) (pyStrip s.toList).length = none →
      extract_movie_info s = (String.mk (pyStrip s.toList), none)) := by
  refine ⟨by decide, by decide, by decide, ?_, ?_, ?_⟩
  · intro g y h
    have h2 : greedyMatch restComma4 (pyStrip s.data) (pyStrip s.data).length
        = some (g, y) := h
    simp [extract_movie_info, h2]
  · intro h1 g y h2
    have h1b : greedyMatch restComma4 (pyStrip s.data) (pyStrip s.data).length
        = none := h1
    have h2b : greedyMatch restParen4 (pyStrip s.data) (pyStrip s.data).length
        = some (g, y) := h2
    simp [extract_movie_info, h1b, h2b]
  · intro h1 h2
    have h1b : greedyMatch restComma4 (pyStrip s.data) (pyStrip s.data).length
        = none := h1
    have h2b : greedyMatch restParen4 (pyStrip s.data) (pyStrip s.data).length
        = none := h2
    simp [extract_movie_info, h1b, h2b]

/-- C3 witness: the comma pattern fires on a fresh concrete input. -/
theorem title_year_extraction_ordered_witness :
    extract_movie_info "Interstellar, 2014" = ("Interstellar", some 2014) :=
  ((title_year_extraction_ordered "Interstellar, 2014").2.2.2.1
    "Interstellar".toList 2014 (by decide)).trans (by decide)

/-- C10: a half glyph without any full star glyph yields no fallback
rating; with a star run present, a half glyph anywhere adds 0.5 to the
length of the first star run. -/
theorem half_glyph_requires_star (s : String) :
    (s.toList.contains '★' = false → (extract_rating_info s).rating = none) ∧
    (∀ n : ℕ, firstStarRun s.toList = some n →
      (extract_rating_info s).rating =
        some ((n : ℚ) + if containsSub ['½'] s.toList then 1/2 else 0)) ∧
    (extract_rating_info "½").rating = none ∧
    (extract_rating_info "½ ★★").rating = some (5/2) := by
  refine ⟨?_, ?_, by decide, ?_⟩
  · intro h
    have h2 : firstStarRun s.data = none := firstStarRun_of_not_contains h
    simp [extract_rating_info, h2]
  · intro n hn
    have hn2 : firstStarRun s.data = some n := hn
    simp only [extract_rating_info, hn2]
    by_cases hh : containsSub ['½'] s.data = true
    · simp [hh, hn2]
    · simp [hh, hn2]
  · have h1 : firstStarRun "½ ★★".toList = some 2 := by decide
    have h2 : containsSub ['½'] "½ ★★".toList = true := by decide
    simp only [extract_rating_info, h1, h2]
    norm_num

/-- C10 witness: a lone half glyph in a glyph-free string gives no
rating. -/
theorem half_glyph_requires_star_witness :
    (extract_rating_info "abc½").rating = none :=
  (half_glyph_requires_star "abc½").1 (by decide)

/-- C7 (amended): the review text is the description cleaned of markup
tags and star glyphs with whitespace collapsed, and it is treated as
absent exactly when the cleaned text is 10 characters or SHORTER — a
cleaned review of length exactly 10 is discarded; only length 11 and
up is kept. -/
theorem review_text_min_length (s : String) :
    (extract_review_text s = none ↔ (cleaned_review_text s).length ≤ 10) ∧
    (∀ t, extract_review_text s = some t →
      t = String.mk (cleaned_review_text s) ∧ 11 ≤ t.length) := by
  unfold extract_review_text
  by_cases h : cleaned_review_text s ≠ [] ∧ (cleaned_review_text s).length > 10
  · simp only [if_pos h]
    constructor
    · simp only [reduceCtorEq, false_iff]
      omega
    · intro t ht
      injection ht with ht
      subst ht
      refine ⟨rfl, ?_⟩
      have hl : (String.mk (cleaned_review_text s)).length
          = (cleaned_review_text s).length := rfl
      omega
  · simp only [if_neg h]
    constructor
    · simp only [true_iff]
      by_cases he : cleaned_review_text s = []
      · simp [he]
      · push_neg at h
        have := h he
        omega
    · intro t ht
      exact absurd ht (by simp)

/-- C7 counterexample: a description whose cleaned text has length
exactly 10 (so NOT shorter than 10) is nevertheless discarded, against
the claim that only cleaned text shorter than 10 is treated as
absent. -/
theorem review_text_len10_dropped_cex :
    (cleaned_review_text "abcdefghij").length = 10 ∧
    ¬ ((cleaned_review_text "abcdefghij").length < 10) ∧
    extract_review_text "abcdefghij" = none := by decide

/-- C7 witness: an 11-character cleaned review is kept verbatim. -/
theorem review_text_min_length_witness :
    "abcdefghijk" = String.mk (cleaned_review_text "abcdefghijk") ∧
    11 ≤ "abcdefghijk".length :=
  (review_text_min_length "abcdefghijk").2 "abcdefghijk" (by decide)

/-- C9: the parser yields at most one candidate per item, every yielded
candidate has a present watch date, and an item whose date cannot be
resolved is dropped (`None`), not an error. -/
theorem candidates_bounded_dated (items : List RssItem) (item : RssItem)
    (hdate : watched_date_of item = none) :
    (parse_rss_content items).length ≤ items.length ∧
    (parse_rss_content items).all (fun e => e.watched_date.isSome) = true ∧
    parse_rss_item item = none := by
  refine ⟨List.length_filterMap_le _ _, ?_, ?_⟩
  · rw [List.all_eq_true]
    intro e he
    rcases List.mem_filterMap.mp he with ⟨it, _, hit⟩
    simpa using (parse_rss_item_fields hit).2.2
  · unfold parse_rss_item
    split
    · split
      · rfl
      · rw [hdate]
    · rfl

/-- An item with no structured watch date and an unparseable
publication date. -/
def datelessItem : RssItem :=
  { title := some (some "Parasite")
    pubDate := some (some "nonsense")
    filmTitle := none
    filmYear := none
    watchedDate := none
    memberRating := none
    rewatch := none
    description := none }

/-- C9 witness: a dateless item is dropped without error. -/
theorem candidates_bounded_dated_witness :
    (parse_rss_content [datelessItem]).length ≤ [datelessItem].length ∧
    (parse_rss_content [datelessItem]).all (fun e => e.watched_date.isSome)
      = true ∧
    parse_rss_item datelessItem = none :=
  candidates_bounded_dated [datelessItem] datelessItem (by decide)

/-- A feed item whose structured rating/rewatch elements are absent but
whose description carries both a star-glyph rating and a rewatch
token. -/
def starsInDescItem : RssItem :=
  { title := some (some "Parasite")
    pubDate := some (some "")
    filmTitle := none
    filmYear := none
    watchedDate := some (some "2024-01-02")
    memberRating := none
    rewatch := none
    description := some (some "★★★½ rewatch") }

/-- C2 counterexample: for an item with no structured rating/rewatch
whose DESCRIPTION contains `★★★½` and `rewatch`, the parser yields
rating `None` and `is_rewatch = False` — even though the scanning
helper applied to that description would give 3.5 and `True` — because
the parser feeds the helper the display title, not the description,
and never consults the helper's rewatch result. -/
theorem fallback_scan_uses_title_cex :
    (parse_rss_item starsInDescItem).map (fun e => e.rating) = some none ∧
    (parse_rss_item starsInDescItem).map (fun e => e.is_rewatch) = some false ∧
    (extract_rating_info (description_text_of starsInDescItem)).is_rewatch
      = true ∧
    (extract_rating_info (description_text_of starsInDescItem)).rating
      = some (7/2) := by
  refine ⟨by decide, by decide, by decide, ?_⟩
  have h1 : firstStarRun (description_text_of starsInDescItem).toList
      = some 3 := by decide
  have h2 : containsSub ['½'] (description_text_of starsInDescItem).toList
      = true := by decide
  simp only [extract_rating_info, h1, h2]
  norm_num

/-- C2 (amended): with the structured rating absent or unparseable, the
fallback rating is derived by scanning the item's display TITLE (not
the description) with the star-glyph rules, and the parser applies no
rewatch fallback at all — without a structured rewatch element,
`is_rewatch` is `False`.  The scanning helper itself does map a string
containing `★★★½` to 3.5 and a glyph-free string to `None`. -/
theorem fallback_scan_uses_title (item : RssItem) (e : DiaryEntryData)
    (hp : parse_rss_item item = some e) :
    e.rating = rating_of item ∧
    ((elemTruthyText item.memberRating).bind pyToFloat = none →
      e.rating = (extract_rating_info (title_text_of item)).rating) ∧
    (elemTruthyText item.rewatch = none → e.is_rewatch = false) ∧
    (extract_rating_info "Parasite, 2019 - ★★★½").rating = some (7/2) ∧
    (extract_rating_info "Parasite, 2019").rating = none := by
  obtain ⟨hr, hw, -⟩ := parse_rss_item_fields hp
  refine ⟨hr, ?_, ?_, ?_, by decide⟩
  · intro h
    rw [hr]
    simp [rating_of, h]
  · intro h
    rw [hw]
    simp [rewatch_of, h]
  · have h1 : firstStarRun "Parasite, 2019 - ★★★½".toList = some 3 := by decide
    have h2 : containsSub ['½'] "Parasite, 2019 - ★★★½".toList = true := by decide
    simp only [extract_rating_info, h1, h2]
    norm_num

/-- The entry the parser produces for `starsInDescItem`. -/
def starsInDescEntry : DiaryEntryData :=
  { title := "Parasite"
    year := none
    watched_date := some ⟨2024, 1, 2, 0, 0, 0⟩
    rating := none
    is_rewatch := false
    review_text := none }

/-- C2 witness: the amended claim applied at the concrete item. -/
theorem fallback_scan_uses_title_witness :
    starsInDescEntry.rating
      = (extract_rating_info (title_text_of starsInDescItem)).rating ∧
    starsInDescEntry.is_rewatch = false :=
  ⟨(fallback_scan_uses_title starsInDescItem starsInDescEntry
      (by decide)).2.1 (by decide),
   (fallback_scan_uses_title starsInDescItem starsInDescEntry
      (by decide)).2.2.1 (by decide)⟩

/-- A successfully guarded item parses to the record assembled from the
resolved fields. -/
theorem parse_rss_item_some {it : RssItem} {mi : String × Option Int}
    {wd : PyDateTime}
    (hT : it.title.isSome) (hP : it.pubDate.isSome)
    (hmi : movie_info_of it = some mi) (hwd : watched_date_of it = some wd) :
    parse_rss_item it =
      some { title := mi.1
             year := mi.2
             watched_date := some wd
             rating := rating_of it
             is_rewatch := rewatch_of it
             review_text := extract_review_text (description_text_of it) } := by
  obtain ⟨m1, m2⟩ := mi
  unfold parse_rss_item
  rcases ht : it.title with _ | t
  · simp [ht] at hT
  rcases hp2 : it.pubDate with _ | p
  · simp [hp2] at hP
  simp [hmi, hwd]

/-- `float("7.3")` as a rational. -/
theorem pyToFloat_seven_three : pyToFloat "7.3" = some ((73 : ℚ) / 10) := by
  simp [pyToFloat, pyStrip, splitSign, parseExpSuffix, digitsVal, digitVal,
    isPyDigit, isPySpace]
  norm_num

/-- A feed item whose structured `memberRating` carries a value far
outside the 0.5–5.0 star domain. -/
def overRatingItem : RssItem :=
  { title := some (some "Parasite")
    pubDate := some (some "")
    filmTitle := none
    filmYear := none
    watchedDate := some (some "2024-01-02")
    memberRating := some (some "7.3")
    rewatch := none
    description := none }

/-- The entry the parser produces for `overRatingItem`. -/
def overRatingEntry : DiaryEntryData :=
  { title := "Parasite"
    year := none
    watched_date := some ⟨2024, 1, 2, 0, 0, 0⟩
    rating := some ((73 : ℚ) / 10)
    is_rewatch := false
    review_text := none }

/-- `overRatingItem` parses to `overRatingEntry`: the structured rating
is passed through `float(...)` with no domain validation. -/
theorem overRating_parse :
    parse_rss_item overRatingItem = some overRatingEntry := by
  have hmi : movie_info_of overRatingItem = some ("Parasite", none) := by decide
  have hwd : watched_date_of overRatingItem = some ⟨2024, 1, 2, 0, 0, 0⟩ := by
    decide
  have hb : elemTruthyText overRatingItem.memberRating = some "7.3" := by decide
  have hr : rating_of overRatingItem = some ((73 : ℚ) / 10) := by
    simp [rating_of, hb, pyToFloat_seven_three]
  have hw : rewatch_of overRatingItem = false := by decide
  have hrev : extract_review_text (description_text_of overRatingItem)
      = none := by decide
  rw [parse_rss_item_some (by decide) (by decide) hmi hwd, hr, hw, hrev]
  rfl

/-- C8 counterexample: a feed carrying `memberRating = "7.3"` yields a
candidate whose rating is 7.3, outside the claimed 0.5–5.0 domain
(not even `≤ 5`), refuting the domain invariant on the structured
path. -/
theorem rating_domain_cex :
    (parse_rss_item overRatingItem).map (fun e => e.rating)
      = some (some ((73 : ℚ) / 10)) ∧
    ¬ ((73 : ℚ) / 10 ≤ 5) := by
  constructor
  · rw [overRating_parse]
    rfl
  · norm_num

/-- C8 (amended): every candidate rating is `None`, or the unvalidated
float parsed from the structured `memberRating` element, or a fallback
star-scan value of the form `m/2` with `m ≥ 2` (half-steps from 1.0
upward, with no upper bound): the 0.5–5.0 domain is not enforced on
either path. -/
theorem rating_domain_not_enforced (item : RssItem) (e : DiaryEntryData)
    (hp : parse_rss_item item = some e) :
    e.rating = none ∨
    (((elemTruthyText item.memberRating).bind pyToFloat).isSome ∧
      e.rating = (elemTruthyText item.memberRating).bind pyToFloat) ∨
    (∃ m : ℕ, 2 ≤ m ∧ e.rating = some ((m : ℚ) / 2)) := by
  obtain ⟨hr, -, -⟩ := parse_rss_item_fields hp
  rw [hr]
  rcases hs : (elemTruthyText item.memberRating).bind pyToFloat with _ | r
  · have hfall : rating_of item = (extract_rating_info (title_text_of item)).rating := by
      unfold rating_of
      rw [hs]
    rw [hfall]
    rcases hstar : firstStarRun (title_text_of item).toList with _ | n
    · left
      have h2 : firstStarRun (title_text_of item).data = none := hstar
      simp [extract_rating_info, h2]
    · right; right
      have h1 : 1 ≤ n := firstStarRun_pos hstar
      have h2 : firstStarRun (title_text_of item).data = some n := hstar
      by_cases hh : containsSub ['½'] (title_text_of item).toList = true
      · refine ⟨2 * n + 1, by omega, ?_⟩
        have hv : (extract_rating_info (title_text_of item)).rating
            = some ((n : ℚ) + 1/2) := by
          simp only [extract_rating_info]
          rw [hstar, if_pos (by simp; exact hh)]
          rfl
        rw [hv]
        simp only [Option.some.injEq]
        push_cast
        ring
      · refine ⟨2 * n, by omega, ?_⟩
        have hhB : containsSub ['½'] (title_text_of item).toList = false :=
          Bool.eq_false_iff.mpr hh
        have hv : (extract_rating_info (title_text_of item)).rating
            = some ((n : ℚ)) := by
          simp only [extract_rating_info]
          rw [hstar, if_neg (by simp; exact hhB)]
          rfl
        rw [hv]
        simp only [Option.some.injEq]
        push_cast
        ring
  · right; left
    refine ⟨rfl, ?_⟩
    unfold rating_of
    rw [hs]

/-- C8 witness: the amended claim applied at the concrete
out-of-domain item. -/
theorem rating_domain_not_enforced_witness :
    overRatingEntry.rating = none ∨
    (((elemTruthyText overRatingItem.memberRating).bind pyToFloat).isSome ∧
      overRatingEntry.rating
        = (elemTruthyText overRatingItem.memberRating).bind pyToFloat) ∨
    (∃ m : ℕ, 2 ≤ m ∧ overRatingEntry.rating = some ((m : ℚ) / 2)) :=
  rating_domain_not_enforced overRatingItem overRatingEntry overRating_parse

/-- C5 counterexample: for a completed session with zero diary entries
the stats endpoint does not report `total_films = 0`; it rejects the
request with 404 "No diary entries found". -/
theorem empty_feed_stats_404_cex :
    get_stats "sid" (some SessionStatus.completed) []
      = Except.error (404, "No diary entries found") := rfl

/-- C5 (amended): a job whose fetch succeeds with zero parseable
entries finalizes to `Completed` at progress 100 (trace
`0, 10, 30, 100`), and the stats computation on the empty entry set
yields `total_films = 0` and `enrichment_rate = 0` with no division —
but the stats endpoint answers 404 "No diary entries found" for such a
session instead of exposing those statistics. -/
theorem empty_feed_completes (key : Option String)
    (searches : Nat → TmdbSearchOutcome) :
    (process_rss_data (.ok []) key searches).status = SessionStatus.completed ∧
    (process_rss_data (.ok []) key searches).progress = 100 ∧
    (process_rss_data (.ok []) key searches).trace = [0, 10, 30, 100] ∧
    (compute_user_stats []).total_films = 0 ∧
    (compute_user_stats []).enrichment_rate = 0 ∧
    (compute_user_stats []).average_rating = none ∧
    get_stats "sid" (some SessionStatus.completed) []
      = Except.error (404, "No diary entries found") :=
  ⟨rfl, rfl, rfl, rfl, rfl, rfl, rfl⟩

/-- C6: an absent or empty API credential and any failed search
round-trip give no-match rather than an error; in the ingestion loop a
no-match marks that entry `tmdb_failed` while the batch still stores
every entry and the job still completes. -/
theorem enrichment_failure_entry_local (api_key : Option String)
    (outcome : TmdbSearchOutcome) (entries : List DiaryEntryData)
    (searches : Nat → TmdbSearchOutcome) (i : Nat)
    (hi : i < entries.length)
    (hnone : search_movie api_key (searches i) = none) :
    search_movie none outcome = none ∧
    search_movie (some "") outcome = none ∧
    search_movie api_key TmdbSearchOutcome.failure = none ∧
    (process_rss_data (.ok entries) api_key searches).status
      = SessionStatus.completed ∧
    (process_rss_data (.ok entries) api_key searches).stored.length
      = entries.length ∧
    ((process_rss_data (.ok entries) api_key searches).stored[i]?.map
      (fun r => r.tmdb_failed)) = some true := by
  refine ⟨rfl, rfl, ?_, rfl, ?_, ?_⟩
  · rcases api_key with _ | k
    · rfl
    · by_cases hk : k = "" <;> simp [search_movie, hk]
  · simp [process_rss_data]
  · simp only [process_rss_data]
    rw [List.getElem?_map, List.getElem?_enum,
      List.getElem?_eq_getElem hi]
    simp [mkStoredEntry, hnone]

/-- An already-parsed diary entry used to exercise the ingestion
loop. -/
def plainEntry : DiaryEntryData :=
  { title := "Parasite"
    year := some 2019
    watched_date := some ⟨2024, 1, 2, 0, 0, 0⟩
    rating := none
    is_rewatch := false
    review_text := none }

/-- C6 witness: a failing search leaves the single stored entry
flagged `tmdb_failed`. -/
theorem enrichment_failure_entry_local_witness :
    ((process_rss_data (.ok [plainEntry]) (some "key")
        (fun _ => TmdbSearchOutcome.failure)).stored[0]?.map
      (fun r => r.tmdb_failed)) = some true :=
  (enrichment_failure_entry_local (some "key") (.ok []) [plainEntry]
    (fun _ => TmdbSearchOutcome.failure) 0 (by decide) (by decide)).2.2.2.2.2

/-- Per-entry progress is monotone in the entry index. -/
theorem perEntryProgress_mono (n : Nat) {i j : Nat} (h : i ≤ j) :
    perEntryProgress n i ≤ perEntryProgress n j := by
  unfold perEntryProgress
  have hm : (i + 1) * 60 ≤ (j + 1) * 60 := Nat.mul_le_mul_right 60 (by omega)
  exact Nat.add_le_add_left (Nat.div_le_div_right hm) 30

/-- Per-entry progress never exceeds 90 while the index is in range. -/
theorem perEntryProgress_le_90 {n i : Nat} (hn : 0 < n) (hi : i < n) :
    perEntryProgress n i ≤ 90 := by
  unfold perEntryProgress
  have h1 : (i + 1) * 60 ≤ n * 60 := Nat.mul_le_mul_right 60 (by omega)
  have h2 : (i + 1) * 60 / n ≤ n * 60 / n := Nat.div_le_div_right h1
  have h3 : n * 60 / n = 60 := by
    rw [Nat.mul_comm]
    exact Nat.mul_div_cancel 60 hn
  omega

/-- The last entry's progress write is exactly 90. -/
theorem perEntryProgress_last {n : Nat} (hn : 0 < n) :
    perEntryProgress n (n - 1) = 90 := by
  unfold perEntryProgress
  have h : n - 1 + 1 = n := by omega
  rw [h, Nat.mul_comm, Nat.mul_div_cancel 60 hn]

/-- The per-entry section of the trace is non-decreasing. -/
theorem chain_map_perEntry (n : Nat) :
    List.Chain' (· ≤ ·) ((List.range n).map (perEntryProgress n)) := by
  rw [List.chain'_map]
  cases n with
  | zero => simp
  | succ m =>
    rw [List.chain'_range_succ]
    intro k _
    exact perEntryProgress_mono (m + 1) (Nat.le_succ k)

/-- Last element of a mapped range. -/
theorem getLast_map_range {n : Nat} (hn : 0 < n) (f : Nat → Nat) :
    ((List.range n).map f).getLast? = some (f (n - 1)) := by
  obtain ⟨m, rfl⟩ : ∃ m, n = m + 1 := ⟨n - 1, by omega⟩
  rw [List.range_succ, List.map_append]
  simp

/-- The full success trace is non-decreasing. -/
theorem jobProgressTrace_chain {n : Nat} (hn : 0 < n) :
    List.Chain' (· ≤ ·) (jobProgressTrace n) := by
  unfold jobProgressTrace
  rw [List.chain'_append]
  refine ⟨?_, by simp, ?_⟩
  · rw [List.chain'_append]
    refine ⟨by simp [List.chain'_cons], chain_map_perEntry n, ?_⟩
    intro x hx y hy
    simp only [List.getLast?_cons_cons, List.getLast?_singleton,
      Option.mem_def, Option.some.injEq] at hx
    subst hx
    obtain ⟨m, rfl⟩ : ∃ m, n = m + 1 := ⟨n - 1, by omega⟩
    rw [List.range_succ_eq_map] at hy
    simp only [List.map_cons, List.head?_cons, Option.mem_def,
      Option.some.injEq] at hy
    subst hy
    unfold perEntryProgress
    exact Nat.le_add_right 30 _
  · intro x hx y hy
    simp only [List.head?_cons, Option.mem_def, Option.some.injEq] at hy
    subst hy
    rw [List.getLast?_append, getLast_map_range hn] at hx
    simp only [Option.or_some, Option.mem_def, Option.some.injEq] at hx
    subst hx
    have h90 := perEntryProgress_le_90 hn (i := n - 1) (by omega)
    omega

/-- C1: over a run with `N > 0` entries the committed progress values
`0, 10, 30, 30 + floor((i+1)*60/N), ..., 100` form a non-decreasing
sequence whose per-entry value after the `i`-th entry is
`30 + floor((i+1)/N * 60)`, reaching 90 on the last entry and exactly
100 at `Completed`; every proper prefix (the writes seen by a run that
fails mid-way) is still non-decreasing and stays strictly below 100,
and a run whose fetch fails commits `0, 10` and ends `Failed` at
progress 10 with no decrease. -/
theorem progress_monotone_trace (n k i : Nat)
    (hn : 0 < n) (hk : k ≤ n + 3) (hi : i < n) :
    List.Chain' (· ≤ ·) (jobProgressTrace n) ∧
    (jobProgressTrace n).getLast? = some 100 ∧
    (jobProgressTrace n)[3 + i]? = some (30 + ((i + 1) * 60) / n) ∧
    ((List.range n).map (perEntryProgress n)).getLast? = some 90 ∧
    List.Chain' (· ≤ ·) ((jobProgressTrace n).take k) ∧
    ((jobProgressTrace n).take k).all (fun x => x < 100) = true ∧
    (∀ entries : List DiaryEntryData, ∀ key searches,
      (process_rss_data (.ok entries) key searches).trace
        = jobProgressTrace entries.length ∧
      (process_rss_data (.ok entries) key searches).progress = 100 ∧
      (process_rss_data (.ok entries) key searches).status
        = SessionStatus.completed) ∧
    (∀ msg : String, ∀ key searches,
      (process_rss_data (.error msg) key searches).trace = [0, 10] ∧
      (process_rss_data (.error msg) key searches).status
        = SessionStatus.failed ∧
      (process_rss_data (.error msg) key searches).progress = 10) := by
  have hchain := jobProgressTrace_chain hn
  refine ⟨hchain, ?_, ?_, ?_, ?_, ?_, fun _ _ _ => ⟨rfl, rfl, rfl⟩,
    fun _ _ _ => ⟨rfl, rfl, rfl⟩⟩
  · unfold jobProgressTrace
    rw [List.getLast?_concat]
  · unfold jobProgressTrace
    rw [List.getElem?_append (n := 3 + i), if_pos (by simp; omega),
      List.getElem?_append_right (by simp)]
    have h3 : 3 + i - ([0, 10, 30] : List Nat).length = i := by simp
    rw [h3, List.getElem?_map, List.getElem?_range hi]
    rfl
  · rw [getLast_map_range hn, perEntryProgress_last hn]
  · exact hchain.prefix (List.take_prefix _ _)
  · rw [List.all_eq_true]
    intro x hx
    have hk3 : k ≤ ([0, 10, 30] ++ (List.range n).map (perEntryProgress n)).length := by
      simp [hk]
    unfold jobProgressTrace at hx
    rw [List.take_append_of_le_length hk3] at hx
    have hxA : x ∈ [0, 10, 30] ++ (List.range n).map (perEntryProgress n) :=
      List.take_subset _ _ hx
    rcases List.mem_append.mp hxA with hx1 | hx2
    · fin_cases hx1 <;> decide
    · rcases List.mem_map.mp hx2 with ⟨j, hj, rfl⟩
      have hjn : j < n := List.mem_range.mp hj
      have h90 := perEntryProgress_le_90 hn hjn
      simp only [decide_eq_true_eq]
      omega

/-- C1 witness: the trace for a two-entry job evaluated concretely. -/
theorem progress_monotone_trace_witness :
    List.Chain' (· ≤ ·) (jobProgressTrace 2) ∧
    (jobProgressTrace 2).getLast? = some 100 ∧
    (jobProgressTrace 2)[3 + 1]? = some (30 + ((1 + 1) * 60) / 2) ∧
    ((List.range 2).map (perEntryProgress 2)).getLast? = some 90 :=
  have h := progress_monotone_trace 2 4 1 (by decide) (by decide) (by decide)
  ⟨h.1, h.2.1, h.2.2.1, h.2.2.2.1⟩

/-- One fold step of the first-seen dedup. -/
theorem dedupFirstSeen_concat {α : Type} [DecidableEq α] (l : List α) (a : α) :
    dedupFirstSeen (l ++ [a])
      = if a ∈ dedupFirstSeen l then dedupFirstSeen l
        else dedupFirstSeen l ++ [a] := by
  rw [dedupFirstSeen, List.foldl_append]
  rfl

/-- First-seen dedup preserves membership. -/
theorem mem_dedupFirstSeen {α : Type} [DecidableEq α] (l : List α) (x : α) :
    x ∈ dedupFirstSeen l ↔ x ∈ l := by
  induction l using List.reverseRecOn with
  | nil => simp [dedupFirstSeen]
  | append_singleton l a ih =>
    rw [dedupFirstSeen_concat]
    by_cases h : a ∈ dedupFirstSeen l
    · rw [if_pos h]
      constructor
      · intro hx
        exact List.mem_append_left _ (ih.mp hx)
      · intro hx
        rcases List.mem_append.mp hx with hx | hx
        · exact ih.mpr hx
        · simp only [List.mem_singleton] at hx
          subst hx
          exact h
    · rw [if_neg h]
      simp [ih]

/-- First-seen dedup yields distinct values. -/
theorem nodup_dedupFirstSeen {α : Type} [DecidableEq α] (l : List α) :
    (dedupFirstSeen l).Nodup := by
  induction l using List.reverseRecOn with
  | nil => simp [dedupFirstSeen]
  | append_singleton l a ih =>
    rw [dedupFirstSeen_concat]
    by_cases h : a ∈ dedupFirstSeen l
    · rw [if_pos h]
      exact ih
    · rw [if_neg h]
      simp [List.nodup_append, ih, h]

/-- Bumping a key already present in a keyed table increments exactly
that key's count in place. -/
theorem bumpCount_map_of_mem {f : String → Nat} {ks : List String}
    {v : String} (hnd : ks.Nodup) (hv : v ∈ ks) :
    bumpCount (ks.map fun x => (x, f x)) v
      = ks.map fun x => (x, f x + if x = v then 1 else 0) := by
  induction ks with
  | nil => simp at hv
  | cons a t ih =>
    simp only [List.map_cons, bumpCount]
    by_cases hav : a = v
    · rw [if_pos hav]
      subst hav
      simp only [if_pos rfl]
      congr 1
      apply List.map_congr_left
      intro x hx
      have hxa : ¬ x = a := by
        intro he
        subst he
        exact (List.nodup_cons.mp hnd).1 hx
      simp [hxa]
    · rw [if_neg hav]
      have hvt : v ∈ t := by
        rcases List.mem_cons.mp hv with h | h
        · exact absurd h.symm hav
        · exact h
      rw [ih (List.nodup_cons.mp hnd).2 hvt]
      congr 1
      simp [hav]

/-- Bumping a fresh key appends it with count 1. -/
theorem bumpCount_map_of_not_mem {f : String → Nat} {ks : List String}
    {v : String} (hv : v ∉ ks) :
    bumpCount (ks.map fun x => (x, f x)) v
      = (ks.map fun x => (x, f x)) ++ [(v, 1)] := by
  induction ks with
  | nil => rfl
  | cons a t ih =>
    simp only [List.map_cons, bumpCount]
    have hav : ¬ a = v := fun h => hv (h ▸ List.mem_cons_self a t)
    rw [if_neg hav, ih (fun h => hv (List.mem_cons_of_mem a h))]
    rfl

/-- The counting dict holds the distinct names in first-seen order,
each with its total occurrence count. -/
theorem countNames_eq (l : List String) :
    countNames l = (dedupFirstSeen l).map fun v => (v, l.count v) := by
  induction l using List.reverseRecOn with
  | nil => rfl
  | append_singleton l a ih =>
    rw [countNames, List.foldl_append, List.foldl_cons, List.foldl_nil]
    rw [show List.foldl bumpCount [] l = countNames l from rfl, ih,
      dedupFirstSeen_concat]
    by_cases h : a ∈ dedupFirstSeen l
    · rw [if_pos h, bumpCount_map_of_mem (nodup_dedupFirstSeen l) h]
      apply List.map_congr_left
      intro x hx
      rw [List.count_append]
      by_cases hxa : x = a
      · subst hxa
        simp [List.count_singleton]
      · have : List.count x [a] = 0 := by
          simp [List.count_singleton]
          exact fun he => hxa he.symm
        rw [this]
        simp [hxa]
    · rw [if_neg h, bumpCount_map_of_not_mem h, List.map_append]
      congr 1
      · apply List.map_congr_left
        intro x hx
        have hxa : ¬ x = a := by
          intro he
          subst he
          exact h hx
        rw [List.count_append]
        have : List.count x [a] = 0 := by
          simp [List.count_singleton]
          exact fun he => hxa he.symm
        rw [this]
        simp
      · have ha : a ∉ l := fun hc => h ((mem_dedupFirstSeen l a).mpr hc)
        have h0 : l.count a = 0 := List.count_eq_zero.mpr ha
        simp [List.count_append, h0, List.count_singleton]

/-- The pairwise stable descending insertion commutes with pairing
each value with its key. -/
theorem insertDesc_map (f : String → Nat) (x : String) (l : List String) :
    insertDesc (x, f x) (l.map fun v => (v, f v))
      = (insertKeyDesc f x l).map fun v => (v, f v) := by
  induction l with
  | nil => rfl
  | cons y t ih =>
    simp only [List.map_cons, insertDesc, insertKeyDesc]
    by_cases h : f x < f y
    · rw [if_pos h, if_pos h, List.map_cons, ih]
    · rw [if_neg h, if_neg h]
      rfl

/-- Python's stable descending sort of the dict items equals the
spec-side stable sort of the keys, paired with their counts. -/
theorem sortCountsDesc_map (f : String → Nat) (l : List String) :
    sortCountsDesc (l.map fun v => (v, f v))
      = (sortKeyDesc f l).map fun v => (v, f v) := by
  induction l with
  | nil => rfl
  | cons y t ih =>
    simp only [List.map_cons, sortCountsDesc, sortKeyDesc, List.foldr_cons]
    rw [show List.foldr insertDesc [] (t.map fun v => (v, f v))
        = sortCountsDesc (t.map fun v => (v, f v)) from rfl, ih]
    exact insertDesc_map f y (sortKeyDesc f t)

/-- The count-sort-take-5 pipeline of the aggregator equals the
spec-side frequency ranking. -/
theorem topCounts_eq_spec (stream : List String) :
    ((sortCountsDesc (countNames stream)).take 5).map Prod.fst
      = specTopByFrequency stream := by
  rw [countNames_eq, sortCountsDesc_map (fun v => stream.count v),
    specTopByFrequency, ← List.map_take, List.map_map]
  rw [show (Prod.fst ∘ fun v => (v, List.count v stream)) = id from rfl,
    List.map_id]

/-- Anything in the set table after an insert was in the table before
or is the inserted key. -/
theorem pySetAdd_go_mem (x : Int) :
    ∀ (fuel perturb i : Nat) (t : List (Option Int)) (v : Int),
      some v ∈ pySetAdd.go x fuel perturb i t → some v ∈ t ∨ v = x := by
  intro fuel
  induction fuel with
  | zero =>
    intro perturb i t v h
    exact Or.inl h
  | succ f ih =>
    intro perturb i t v h
    rw [pySetAdd.go] at h
    split at h
    · rcases List.mem_or_eq_of_mem_set h with h1 | h1
      · exact Or.inl h1
      · injection h1 with h1
        exact Or.inr h1
    · rename_i y heq
      by_cases hyx : y = x
      · rw [if_pos hyx] at h
        exact Or.inl h
      · rw [if_neg hyx] at h
        exact ih _ _ t v h

/-- Every value read back from the set model was inserted. -/
theorem pySetList_subset (xs : List Int) : ∀ v ∈ pySetList xs, v ∈ xs := by
  have haux : ∀ (ys : List Int) (t : List (Option Int)) (v : Int),
      some v ∈ ys.foldl pySetAdd t → some v ∈ t ∨ v ∈ ys := by
    intro ys
    induction ys with
    | nil =>
      intro t v h
      exact Or.inl h
    | cons x r ih =>
      intro t v h
      rcases ih (pySetAdd t x) v h with h1 | h2
      · rcases pySetAdd_go_mem x _ _ _ t v h1 with h3 | h4
        · exact Or.inl h3
        · subst h4
          exact Or.inr (List.mem_cons_self _ _)
      · exact Or.inr (List.mem_cons_of_mem _ h2)
  intro v hv
  unfold pySetList at hv
  rcases List.mem_filterMap.mp hv with ⟨o, ho, hid⟩
  have ho2 : some v ∈ List.foldl pySetAdd (List.replicate 8 none) xs := by
    have : o = some v := hid
    rwa [this] at ho
  rcases haux xs (List.replicate 8 none) v ho2 with h1 | h2
  · have := List.eq_of_mem_replicate h1
    exact absurd this (by simp)
  · exact h2

/-- C4 (amended): the genre and director top lists are the at-most-5
most frequent values sorted by descending count, ties broken by first
appearance in the entry sequence; the `top_years` local, however, is
`list(set(years))[:5]` — at most five values drawn from the entries'
years in hash-table iteration order, not a frequency ranking — and it
is not even included in the aggregator's returned payload. -/
theorem top_lists_frequency_ranked (entries : List DbDiaryEntry) :
    (compute_user_stats entries).top_genres
      = specTopByFrequency (genreStreamOf (entries.filter isEnrichedEntry)) ∧
    (compute_user_stats entries).top_directors
      = specTopByFrequency
          (directorStreamOf (entries.filter isEnrichedEntry)) ∧
    (compute_top_years entries).length ≤ 5 ∧
    (compute_top_years entries).all
      (fun y => (entries.filterMap (fun e => e.year)).contains y) = true := by
  refine ⟨?_, ?_, ?_, ?_⟩
  · show get_top_genres (entries.filter isEnrichedEntry) = _
    rw [get_top_genres]
    exact topCounts_eq_spec _
  · show get_top_directors (entries.filter isEnrichedEntry) = _
    rw [get_top_directors]
    exact topCounts_eq_spec _
  · rw [compute_top_years]
    simp [List.length_take]
  · rw [List.all_eq_true]
    intro y hy
    have hmem : y ∈ pySetList (entries.filterMap (fun e => e.year)) := by
      rw [compute_top_years] at hy
      exact List.take_subset _ _ hy
    have := pySetList_subset _ y hmem
    exact List.elem_iff.mpr this

/-- Three entries whose year multiset is `{2020, 2020, 2019}`. -/
def skewedYears : List DbDiaryEntry :=
  [{ rating := none, year := some 2020, tmdb_enriched := false,
     tmdb_id := none, movie_details := none },
   { rating := none, year := some 2020, tmdb_enriched := false,
     tmdb_id := none, movie_details := none },
   { rating := none, year := some 2019, tmdb_enriched := false,
     tmdb_id := none, movie_details := none }]

/-- C4 counterexample: with years `2020, 2020, 2019` the frequency
ranking is `[2020, 2019]`, but the aggregator's year computation —
`list(set(years))[:5]`, iterating the CPython hash table in slot
order — yields `[2019, 2020]`: the year list is not sorted by
descending occurrence count. -/
theorem top_years_not_frequency_cex :
    compute_top_years skewedYears = [2019, 2020] ∧
    specTopByFrequency (skewedYears.filterMap (fun e => e.year))
      = [2020, 2019] ∧
    compute_top_years skewedYears
      ≠ specTopByFrequency (skewedYears.filterMap (fun e => e.year)) := by
  refine ⟨by decide, by decide, by decide⟩

end LWL
